import Mathlib

/-!
Shallow embedding of the sentiment-data retrieval cache of RxU-backend
(`app/services/fetch_sentiment.py`): a read-through cache resolving a
drug's sentiment JSON document through three tiers (local cache directory,
remote S3 object store, bundled local fallback directory).

Modelling conventions:
* A JSON value is the inductive `Json`; numbers are modelled as `Int`
  (the numeric granularity is irrelevant to every property proved here).
* The content of a file is `Option Json`: `some j` means the bytes parse
  as the JSON value `j`, `none` means `json.load`/`json.loads` raises
  `JSONDecodeError` (unparsable bytes).  Persisting a parsed value and
  re-reading it yields the same `Json` value, which is exactly the
  "modulo re-serialization formatting" identification of the source
  (`json.dump(data, f, indent=4)` re-serializes the parsed object).
* A directory is an association list from filename to content; the
  bundled fallback directory may be absent (`Option Dir`), matching the
  `os.path.exists` guard; the cache directory always exists because
  `__init__` runs `os.makedirs(self.folder_path, exist_ok=True)`.
* The remote tier is an environment function `s3 : String → S3Outcome`
  from the S3 object key (the normalized drug name; the constant
  `agg/` prefix and `.json` suffix are dropped as they are bijective
  bookkeeping) to the outcome of `get_object`.  `s3Available = false`
  models missing credentials (the lazy client permanently short-circuits
  to `None`).  `copyOk` models whether `shutil.copy2` succeeds.
* Python exceptions that the source catches are represented by the
  corresponding `none`/failure constructors; the one place an exception
  escapes `fetch_drug_sentiment` (a `TypeError` from `field not in data`
  when the parsed document is a number, boolean or null) is modelled by
  the `Except Unit` result.
* `print` diagnostics that matter to the specified properties are
  recorded as `Event`s; every tier access is also recorded, so that
  "never touches tier X" is the absence of the corresponding event.
-/

/-- A JSON value, as produced by Python's `json.loads`. -/
inductive Json where
  | null : Json
  | bool : Bool → Json
  | num : Int → Json
  | str : String → Json
  | arr : List Json → Json
  | obj : List (String × Json) → Json

/-- File content: `some j` when the bytes parse as JSON `j`, `none` when
`json.load` would raise `JSONDecodeError`. -/
abbrev Content := Option Json

/-- A directory: an association list from filename to file content. -/
abbrev Dir := List (String × Content)

/-- Outcome of an S3 `get_object` call for a given key, following the
error taxonomy handled in `_fetch_from_s3`. -/
inductive S3Outcome where
  | ok : Content → S3Outcome          -- bytes retrieved; `Content` records whether they parse
  | noSuchKey : S3Outcome             -- ClientError with code NoSuchKey
  | noSuchBucket : S3Outcome          -- ClientError with code NoSuchBucket
  | accessDenied : S3Outcome          -- ClientError with code AccessDenied
  | clientError : String → S3Outcome  -- ClientError with any other code
  | otherError : S3Outcome            -- any other exception

/-- The service environment: remote-store behaviour and copy success. -/
structure Env where
  s3Available : Bool                  -- credentials present and client constructed
  s3 : String → S3Outcome             -- remote store, keyed by normalized drug name
  copyOk : Bool                       -- whether shutil.copy2 to the cache succeeds

/-- The mutable filesystem state seen by the service: the local cache
directory (created at `__init__`, hence always present) and the bundled
fallback directory (may be missing). -/
structure ServiceState where
  cacheDir : Dir
  fallbackDir : Option Dir

/-- Observable events: tier accesses and the diagnostics the specified
properties mention. -/
inductive Event where
  | cacheCheck : String → Event          -- os.path.exists on the cache path for a key
  | s3Get : String → Event               -- s3_client.get_object for a key
  | fallbackCheck : String → Event       -- os.path.exists on the fallback path for a key
  | cacheWrite : String → Event          -- a file written into the cache directory
  | cacheDelete : String → Event         -- os.remove of one cache file
  | clearAll : Event                     -- the clear-all branch of clear_cache
  | noCacheFound : String → Event        -- "No cache found for {drug_name}" diagnostic
  | missingFieldsDiag : String → List String → Event
      -- "Invalid sentiment data structure ... Missing fields: [...]" diagnostic

/-- A resolved document handle: the path returned by the resolver is
either the cache path for a key or the fallback directory's own path
(the latter only when copying into the cache failed). -/
inductive Handle where
  | cachePath : String → Handle
  | fallbackPath : String → Handle

/-- `s.lower()`: lowercase every character.  (Implemented over the
character list so that it computes by structural recursion; the library
`String.toLower` is definitionally opaque.) -/
def lowerStr (s : String) : String := ⟨s.data.map Char.toLower⟩

/-- Drop leading and trailing whitespace from a character list. -/
def stripChars (l : List Char) : List Char :=
  ((l.dropWhile Char.isWhitespace).reverse.dropWhile Char.isWhitespace).reverse

/-- `s.strip()`: drop leading and trailing whitespace. -/
def stripStr (s : String) : String := ⟨stripChars s.data⟩

/-- `drug_name.lower().strip()`. -/
def normalizedName (s : String) : String := stripStr (lowerStr s)

/-- `filename.endswith(suffix)`. -/
def strEndsWith (s suffix : String) : Bool := suffix.data.isSuffixOf s.data

/-- Lookup a filename in a directory. -/
def dirGet (d : Dir) (file : String) : Option Content := d.lookup file

/-- Lookup in a possibly missing directory (missing ⇒ nothing found). -/
def dirGetOpt (d : Option Dir) (file : String) : Option Content :=
  match d with
  | none => none
  | some entries => dirGet entries file

/-- Remove a filename from a directory. -/
def dirErase (d : Dir) (file : String) : Dir :=
  d.filter (fun p => !(p.1 == file))

/-- Write (create or overwrite) a file in a directory. -/
def dirInsert (d : Dir) (file : String) (c : Content) : Dir :=
  (file, c) :: dirErase d file

/-- Write a file into the cache directory of the state. -/
def writeCacheFile (st : ServiceState) (file : String) (c : Content) : ServiceState :=
  { st with cacheDir := dirInsert st.cacheDir file c }

/-- `SentimentService._fetch_from_s3`: call `get_object`, parse the body,
persist the parsed document to the cache path, return that path; every
error (client error, unexpected exception, unparsable body) is caught and
yields `none` so the caller falls through to the next tier. -/
def fetchFromS3 (env : Env) (st : ServiceState) (key : String) :
    Option Handle × ServiceState × List Event :=
  match env.s3 key with
  | S3Outcome.ok body =>
    match body with
    | some data =>
      (some (Handle.cachePath key),
       writeCacheFile st (key ++ ".json") (some data),
       [Event.s3Get key, Event.cacheWrite (key ++ ".json")])
    | none => (none, st, [Event.s3Get key])   -- JSONDecodeError: log, return None
  | _ => (none, st, [Event.s3Get key])        -- ClientError / other exception: log, return None

/-- `SentimentService._fetch_from_local` (with `_get_local_file_path` and
`_copy_from_local_to_cache` inlined): look in the bundled fallback
directory; on hit copy into the cache (on copy failure return the
fallback file's own path); on miss return `none`. -/
def fetchFromLocal (env : Env) (st : ServiceState) (key : String) :
    Option Handle × ServiceState × List Event :=
  match dirGetOpt st.fallbackDir (key ++ ".json") with
  | none => (none, st, [Event.fallbackCheck key])
  | some content =>
    if env.copyOk then
      (some (Handle.cachePath key),
       writeCacheFile st (key ++ ".json") content,
       [Event.fallbackCheck key, Event.cacheWrite (key ++ ".json")])
    else
      (some (Handle.fallbackPath key), st, [Event.fallbackCheck key])

/-- `SentimentService.fetch_file`: try S3 first when the client is
available, then the bundled fallback. -/
def fetch_file (env : Env) (st : ServiceState) (key : String) :
    Option Handle × ServiceState × List Event :=
  if env.s3Available then
    match fetchFromS3 env st key with
    | (some h, st1, evs) => (some h, st1, evs)
    | (none, st1, evs) =>
      match fetchFromLocal env st1 key with
      | (r, st2, evs2) => (r, st2, evs ++ evs2)
  else
    fetchFromLocal env st key

/-- `SentimentService.get_sentiment_file_path`: tier-1 lookup (presence
is the only validity signal), then `fetch_file` on miss. -/
def get_sentiment_file_path (env : Env) (st : ServiceState) (drug_name : String) :
    Option Handle × ServiceState × List Event :=
  match dirGet st.cacheDir (normalizedName drug_name ++ ".json") with
  | some _ =>
    (some (Handle.cachePath (normalizedName drug_name)), st,
     [Event.cacheCheck (normalizedName drug_name)])
  | none =>
    match fetch_file env st (normalizedName drug_name) with
    | (r, st1, evs) => (r, st1, Event.cacheCheck (normalizedName drug_name) :: evs)

/-- `SentimentService.read_sentiment_data`: read and parse the file at
the handle; a missing file or a `JSONDecodeError`/`IOError` yields `none`. -/
def read_sentiment_data (st : ServiceState) (h : Handle) : Option Json :=
  match h with
  | Handle.cachePath key =>
    match dirGet st.cacheDir (key ++ ".json") with
    | some (some j) => some j
    | _ => none
  | Handle.fallbackPath key =>
    match dirGetOpt st.fallbackDir (key ++ ".json") with
    | some (some j) => some j
    | _ => none

/-- Whether `needle` occurs as a contiguous sublist of `hay`. -/
def listHasInfix (needle : List Char) : List Char → Bool
  | [] => needle.isEmpty
  | c :: cs => needle.isPrefixOf (c :: cs) || listHasInfix needle cs

/-- `"field" in s` for a Python string `s`: substring containment. -/
def pyStrContains (hay needle : String) : Bool :=
  listHasInfix needle.data hay.data

/-- `"field" in l` for a Python list `l` of JSON values: a string equal
to `field` is an element (equality with a non-string element is False). -/
def pyListContainsStr (xs : List Json) (field : String) : Bool :=
  xs.any (fun j => match j with
    | Json.str s => s == field
    | _ => false)

/-- Python's `field in data` for a parsed JSON value `data`:
dict ⇒ key membership, str ⇒ substring, list ⇒ element membership;
any other type (int, float, bool, None) raises `TypeError`, modelled as
`none`. -/
def pyContains (data : Json) (field : String) : Option Bool :=
  match data with
  | Json.obj fields => some (fields.any (fun p => p.1 == field))
  | Json.str s => some (pyStrContains s field)
  | Json.arr xs => some (pyListContainsStr xs field)
  | _ => none

/-- The six required fields of a sentiment document. -/
def requiredFields : List String :=
  ["drug_name", "sentiment_data", "overall_sentiment", "sentiment_score",
   "total_posts_analyzed", "analysis_date"]

/-- The list comprehension
`[field for field in required_fields if field not in sentiment_data]`,
evaluated left to right; a `TypeError` from `in` is `Except.error ()`. -/
def missingFieldsAux (data : Json) : List String → Except Unit (List String)
  | [] => Except.ok []
  | f :: rest =>
    match pyContains data f with
    | none => Except.error ()
    | some b =>
      match missingFieldsAux data rest with
      | Except.error e => Except.error e
      | Except.ok ms => Except.ok (if b then ms else f :: ms)

/-- The required-field validation gate of `fetch_drug_sentiment`. -/
def missingFields (data : Json) : Except Unit (List String) :=
  missingFieldsAux data requiredFields

/-- An ASCII single-quote character, as a string. -/
def squote : String := String.singleton (Char.ofNat 39)

/-- `SentimentService._get_empty_sentiment_response`. -/
def emptyResponse (drug_name : String) : Json :=
  Json.obj [
    ("drug_name", Json.str drug_name),
    ("sentiment_data", Json.arr []),
    ("overall_sentiment", Json.str "neutral"),
    ("sentiment_score", Json.num 0),
    ("total_posts_analyzed", Json.num 0),
    ("analysis_date", Json.null),
    ("top_keywords", Json.null),
    ("confidence_score", Json.null),
    ("data_available", Json.bool false),
    ("message", Json.str ("No sentiment data available for " ++ squote ++ drug_name ++ squote))
  ]

/-- `SentimentService.fetch_drug_sentiment`.  The result is
`Except.error ()` exactly when the uncaught Python `TypeError` from
`field not in sentiment_data` (non-iterable parsed document) propagates
to the caller. -/
def fetch_drug_sentiment (env : Env) (st : ServiceState) (drug_name : String) :
    Except Unit Json × ServiceState × List Event :=
  if drug_name == "" || stripStr drug_name == "" then
    (Except.ok (emptyResponse drug_name), st, [])
  else
    match get_sentiment_file_path env st drug_name with
    | (none, st1, evs) => (Except.ok (emptyResponse drug_name), st1, evs)
    | (some h, st1, evs) =>
      match read_sentiment_data st1 h with
      | none => (Except.ok (emptyResponse drug_name), st1, evs)
      | some data =>
        match missingFields data with
        | Except.error _ => (Except.error (), st1, evs)
        | Except.ok [] => (Except.ok data, st1, evs)
        | Except.ok ms =>
          (Except.ok (emptyResponse drug_name), st1,
           evs ++ [Event.missingFieldsDiag drug_name ms])

/-- The clear-all branch of `clear_cache`: remove every `.json` file in
the cache directory. -/
def clearAllCache (st : ServiceState) : ServiceState × List Event :=
  ({ st with cacheDir := st.cacheDir.filter (fun p => !(strEndsWith p.1 ".json")) },
   [Event.clearAll])

/-- The single-key branch of `clear_cache`. -/
def clearSingle (st : ServiceState) (name : String) : ServiceState × List Event :=
  match dirGet st.cacheDir (normalizedName name ++ ".json") with
  | some _ =>
    ({ st with cacheDir := dirErase st.cacheDir (normalizedName name ++ ".json") },
     [Event.cacheDelete (normalizedName name ++ ".json")])
  | none => (st, [Event.noCacheFound name])

/-- `SentimentService.clear_cache(drug_name=None)`.  Python's
`if drug_name:` is false both for `None` and for the empty string, so
`clear_cache("")` takes the clear-all branch. -/
def clear_cache (st : ServiceState) (drug_name : Option String) : ServiceState × List Event :=
  match drug_name with
  | some name => if name == "" then clearAllCache st else clearSingle st name
  | none => clearAllCache st

/-- `SentimentService.force_fetch_drug_sentiment`: clear that key's
cache, then fetch normally. -/
def force_fetch_drug_sentiment (env : Env) (st : ServiceState) (drug_name : String) :
    Except Unit Json × ServiceState × List Event :=
  match clear_cache st (some drug_name) with
  | (st1, evs1) =>
    match fetch_drug_sentiment env st1 drug_name with
    | (r, st2, evs2) => (r, st2, evs1 ++ evs2)

/-- `filename[:-5]`: strip the `.json` suffix. -/
def stripJsonSuffix (s : String) : String := ⟨s.data.take (s.data.length - 5)⟩

/-- The normalized keys contributed by one directory listing: filenames
ending in `.json`, with the suffix stripped. -/
def dirJsonKeys (d : Dir) : List String :=
  ((d.map Prod.fst).filter (fun s => strEndsWith s ".json")).map stripJsonSuffix

/-- Keys contributed by the (possibly missing) fallback directory. -/
def fallbackJsonKeys (st : ServiceState) : List String :=
  match st.fallbackDir with
  | none => []
  | some d => dirJsonKeys d

/-- Code-point comparison of two characters. -/
def charLtB (a b : Char) : Bool := decide (a < b)

/-- Lexicographic (code-point) comparison of character lists, the order
Python's `sorted` uses on strings. -/
def charsLeB : List Char → List Char → Bool
  | [], _ => true
  | _ :: _, [] => false
  | a :: as, b :: bs => charLtB a b || (a == b && charsLeB as bs)

/-- Lexicographic order on strings, as a decidable proposition. -/
def strLe (a b : String) : Prop := charsLeB a.data b.data = true

instance : DecidableRel strLe :=
  fun a b => decidable_of_iff (charsLeB a.data b.data = true) Iff.rfl

/-- `SentimentService.list_available_drugs`: the set union of the cache
and fallback listings (Python `set`), returned sorted. -/
def list_available_drugs (st : ServiceState) : List String :=
  List.insertionSort strLe ((dirJsonKeys st.cacheDir ++ fallbackJsonKeys st).dedup)

/-- The wrapper dict built by `get_available_drugs`. -/
structure DrugList where
  available_drugs : List String
  total_count : Nat

/-- `get_available_drugs`. -/
def get_available_drugs (st : ServiceState) : DrugList :=
  let drugs := list_available_drugs st
  { available_drugs := drugs, total_count := drugs.length }

/-- Whether the remote tier fails to supply a document for `key`, in any
of the ways `fetch_file`/`_fetch_from_s3` degrade gracefully: client
unavailable (no credentials), any handled `ClientError`, any unexpected
exception, or a body that does not parse. -/
def remoteFails (env : Env) (key : String) : Bool :=
  !env.s3Available ||
  (match env.s3 key with
   | S3Outcome.ok body => body.isNone
   | _ => true)

/-- Whether an event is a remote-store access. -/
def Event.isS3 : Event → Bool
  | Event.s3Get _ => true
  | _ => false

/-- Whether an event is a bundled-fallback access. -/
def Event.isFallbackAccess : Event → Bool
  | Event.fallbackCheck _ => true
  | _ => false

/-- Whether a parsed value passes the required-field gate, i.e. Python's
`field in data` succeeds and is true for each of the six required fields. -/
def jsonHasAllRequired (j : Json) : Bool :=
  requiredFields.all (fun f => (pyContains j f).getD false)

/-! ### Concrete environments and states used by witnesses and counterexamples -/

/-- A complete, valid sentiment document. -/
def docA : Json :=
  Json.obj [("drug_name", Json.str "aspirin"), ("sentiment_data", Json.arr []),
            ("overall_sentiment", Json.str "neutral"), ("sentiment_score", Json.num 0),
            ("total_posts_analyzed", Json.num 3), ("analysis_date", Json.str "2024-01-01")]

/-- A parsed object missing five of the six required fields. -/
def docMissing : Json := Json.obj [("drug_name", Json.str "aspirin")]

/-- No credentials configured; copies succeed. -/
def envNone : Env := ⟨false, fun _ => S3Outcome.noSuchKey, true⟩

/-- Remote store has `docA` under the key `aspirin` and nothing else. -/
def envS3Doc : Env :=
  ⟨true, fun k => if k == "aspirin" then S3Outcome.ok (some docA) else S3Outcome.noSuchKey, true⟩

/-- Remote store configured but empty (every get is NoSuchKey). -/
def envS3Empty : Env := ⟨true, fun _ => S3Outcome.noSuchKey, true⟩

/-- Remote access denied; copies succeed. -/
def envDenied : Env := ⟨true, fun _ => S3Outcome.accessDenied, true⟩

/-- Remote access denied; copies into the cache fail. -/
def envDeniedNoCopy : Env := ⟨true, fun _ => S3Outcome.accessDenied, false⟩

/-- Empty cache, no fallback directory. -/
def stEmpty : ServiceState := ⟨[], none⟩

/-- Empty cache; the fallback directory holds `docA` for `aspirin`. -/
def stFallbackA : ServiceState := ⟨[], some [("aspirin.json", some docA)]⟩

/-- Cache holding a JSON number under `aspirin.json`; no fallback. -/
def stNumDoc : ServiceState := ⟨[("aspirin.json", some (Json.num 42))], none⟩

/-- Cache holding a document missing fields under `aspirin.json`. -/
def stMissingDoc : ServiceState := ⟨[("aspirin.json", some docMissing)], none⟩

/-- Cache holding `docA` under `aspirin.json`; no fallback. -/
def stCachedA : ServiceState := ⟨[("aspirin.json", some docA)], none⟩

/-- Cache with two entries, used to exhibit the clear-cache frame. -/
def stTwo : ServiceState :=
  ⟨[("aspirin.json", some docA), ("biotin.json", some (Json.num 2))], none⟩

/-! ## Supporting lemmas -/

theorem charsLeB_total : ∀ a b : List Char, charsLeB a b = true ∨ charsLeB b a = true
  | [], _ => Or.inl rfl
  | _ :: _, [] => Or.inr rfl
  | a :: as, b :: bs => by
    rcases lt_trichotomy a b with h | h | h
    · left; simp [charsLeB, charLtB, h]
    · subst h
      rcases charsLeB_total as bs with ih | ih
      · left; simp [charsLeB, ih]
      · right; simp [charsLeB, ih]
    · right; simp [charsLeB, charLtB, h]

theorem charsLeB_trans :
    ∀ {a b c : List Char}, charsLeB a b = true → charsLeB b c = true → charsLeB a c = true
  | [], _, _, _, _ => rfl
  | _ :: _, [], _, hab, _ => by simp [charsLeB] at hab
  | _ :: _, _ :: _, [], _, hbc => by simp [charsLeB] at hbc
  | a :: as, b :: bs, c :: cs, hab, hbc => by
    simp only [charsLeB, charLtB, Bool.or_eq_true, Bool.and_eq_true, decide_eq_true_eq,
      beq_iff_eq] at hab hbc ⊢
    rcases hab with hab | ⟨rfl, hab⟩
    · rcases hbc with hbc | ⟨rfl, _⟩
      · exact Or.inl (lt_trans hab hbc)
      · exact Or.inl hab
    · rcases hbc with hbc | ⟨rfl, hbc⟩
      · exact Or.inl hbc
      · exact Or.inr ⟨rfl, charsLeB_trans hab hbc⟩

instance : IsTotal String strLe := ⟨fun a b => charsLeB_total a.data b.data⟩

instance : IsTrans String strLe := ⟨fun _ _ _ => charsLeB_trans⟩

theorem dirGet_dirInsert_self (d : Dir) (file : String) (c : Content) :
    dirGet (dirInsert d file c) file = some c := by
  simp [dirGet, dirInsert, List.lookup]

theorem dirGet_dirErase_ne (d : Dir) (file f2 : String) (h : f2 ≠ file) :
    dirGet (dirErase d file) f2 = dirGet d f2 := by
  induction d with
  | nil => rfl
  | cons p rest ih =>
    rcases p with ⟨q, c⟩
    by_cases hq : q = file
    · subst hq
      have hf2 : (f2 == q) = false := by simp [h]
      simp only [dirErase, dirGet, List.filter_cons] at ih ⊢
      simp only [beq_self_eq_true, Bool.not_true, if_false, List.lookup, hf2]
      exact ih
    · have hqf : (!(q == file)) = true := by simp [hq]
      simp only [dirErase, dirGet, List.filter_cons] at ih ⊢
      rw [hqf]
      simp only [if_true, List.lookup]
      cases hf : f2 == q with
      | true => rfl
      | false => exact ih

theorem dirGet_dirErase_self (d : Dir) (file : String) :
    dirGet (dirErase d file) file = none := by
  induction d with
  | nil => rfl
  | cons p rest ih =>
    rcases p with ⟨q, c⟩
    by_cases hq : q = file
    · subst hq
      simp only [dirErase, dirGet, List.filter_cons] at ih ⊢
      simp only [beq_self_eq_true, Bool.not_true, if_false]
      exact ih
    · have hqf : (!(q == file)) = true := by simp [hq]
      have hfq : (file == q) = false := by
        simp only [beq_eq_false_iff_ne, ne_eq]
        exact fun e => hq e.symm
      simp only [dirErase, dirGet, List.filter_cons] at ih ⊢
      rw [hqf]
      simp only [if_true, List.lookup, hfq]
      exact ih

theorem dirGet_dirInsert_ne (d : Dir) (file f2 : String) (c : Content) (h : f2 ≠ file) :
    dirGet (dirInsert d file c) f2 = dirGet d f2 := by
  have h2 : (f2 == file) = false := by simp [h]
  simp only [dirGet, dirInsert, List.lookup, h2]
  exact dirGet_dirErase_ne d file f2 h

/-! ## Claim theorems -/

/-- C1: for every drug name that is empty or whitespace-only,
`fetch_drug_sentiment` returns the EmptyResponse structure (empty
sentiment data, neutral overall sentiment, zero score, zero posts, null
analysis date, `data_available = false`, plus a message) immediately,
with the state unchanged and no tier access or cache write (the event
trace is empty). -/
theorem c1_blank_input_empty_no_tier (env : Env) (st : ServiceState) (drug_name : String)
    (h : (drug_name == "" || stripStr drug_name == "") = true) :
    fetch_drug_sentiment env st drug_name = (Except.ok (emptyResponse drug_name), st, []) := by
  simp [fetch_drug_sentiment, h]

/-- Witness for C1 at the whitespace-only name `"   "`. -/
theorem c1_witness :
    fetch_drug_sentiment envNone stEmpty "   " =
      (Except.ok (emptyResponse "   "), stEmpty, []) :=
  c1_blank_input_empty_no_tier envNone stEmpty "   " (by decide)

/-- C4 (code bug evaluation): a resolved document that parses as the JSON
number 42 is missing every required field, yet `fetch_drug_sentiment`
raises (Python `TypeError` from `field not in 42`) instead of returning
EmptyResponse; and, for contrast, a resolved document that parses as an
object missing five fields is rejected with a diagnostic listing exactly
the absent fields and EmptyResponse is returned. -/
theorem c4_nondict_document_raises :
    fetch_drug_sentiment envNone stNumDoc "aspirin" =
      (Except.error (), stNumDoc, [Event.cacheCheck "aspirin"]) ∧
    fetch_drug_sentiment envNone stMissingDoc "aspirin" =
      (Except.ok (emptyResponse "aspirin"), stMissingDoc,
       [Event.cacheCheck "aspirin",
        Event.missingFieldsDiag "aspirin"
          ["sentiment_data", "overall_sentiment", "sentiment_score",
           "total_posts_analyzed", "analysis_date"]]) :=
  ⟨rfl, rfl⟩

/-- C5: when the normalized key already has a local cache entry (any
content — presence is the only validity signal, no freshness check),
resolution returns the cache path immediately, and a call to
`fetch_drug_sentiment` leaves the state unchanged and performs no
remote-tier and no bundled-fallback access. -/
theorem c5_cache_hit_tier1_short_circuit (env : Env) (st : ServiceState) (name : String)
    (c : Content)
    (hb : (name == "" || stripStr name == "") = false)
    (hc : dirGet st.cacheDir (normalizedName name ++ ".json") = some c) :
    get_sentiment_file_path env st name =
      (some (Handle.cachePath (normalizedName name)), st,
       [Event.cacheCheck (normalizedName name)]) ∧
    (fetch_drug_sentiment env st name).2.1 = st ∧
    ((fetch_drug_sentiment env st name).2.2.all
      (fun e => !(Event.isS3 e || Event.isFallbackAccess e))) = true := by
  have hg : get_sentiment_file_path env st name =
      (some (Handle.cachePath (normalizedName name)), st,
       [Event.cacheCheck (normalizedName name)]) := by
    unfold get_sentiment_file_path
    rw [hc]
  have hread : read_sentiment_data st (Handle.cachePath (normalizedName name)) =
      (match c with | some j => some j | none => none) := by
    simp only [read_sentiment_data, hc]
    cases c <;> rfl
  refine ⟨hg, ?_⟩
  unfold fetch_drug_sentiment
  rw [if_neg (by simp [hb]), hg]
  dsimp only
  rw [hread]
  cases c with
  | none => exact ⟨rfl, rfl⟩
  | some j =>
    dsimp only
    cases hm : missingFields j with
    | error e => exact ⟨rfl, rfl⟩
    | ok ms =>
      cases ms with
      | nil => exact ⟨rfl, rfl⟩
      | cons m ms2 => exact ⟨rfl, rfl⟩

/-- Witness for C5: a cache entry for `aspirin` short-circuits tier 1. -/
theorem c5_witness :
    get_sentiment_file_path envS3Doc stCachedA "aspirin" =
      (some (Handle.cachePath "aspirin"), stCachedA, [Event.cacheCheck "aspirin"]) ∧
    (fetch_drug_sentiment envS3Doc stCachedA "aspirin").2.1 = stCachedA ∧
    ((fetch_drug_sentiment envS3Doc stCachedA "aspirin").2.2.all
      (fun e => !(Event.isS3 e || Event.isFallbackAccess e))) = true :=
  c5_cache_hit_tier1_short_circuit envS3Doc stCachedA "aspirin" (some docA)
    (by decide) (by rfl)

/-- When the remote tier fails in any way of the taxonomy while the
client is available, `_fetch_from_s3` returns `None` without touching
the state. -/
theorem fetchFromS3_remote_fail (env : Env) (st : ServiceState) (key : String)
    (hA : env.s3Available = true) (h : remoteFails env key = true) :
    fetchFromS3 env st key = (none, st, [Event.s3Get key]) := by
  unfold remoteFails at h
  rw [hA] at h
  simp only [Bool.not_true, Bool.false_or] at h
  unfold fetchFromS3
  cases hout : env.s3 key with
  | ok body =>
    rw [hout] at h
    cases body with
    | some j => simp at h
    | none => rfl
  | noSuchKey => rfl
  | noSuchBucket => rfl
  | accessDenied => rfl
  | clientError code => rfl
  | otherError => rfl

/-- When the remote tier fails in any way of the taxonomy (including an
unavailable client), `fetch_file` falls through to the bundled fallback,
never raising. -/
theorem fetch_file_remote_fail (env : Env) (st : ServiceState) (key : String)
    (r : Option Handle) (st2 : ServiceState) (evs2 : List Event)
    (h : remoteFails env key = true)
    (hL : fetchFromLocal env st key = (r, st2, evs2)) :
    fetch_file env st key =
      (r, st2, if env.s3Available = true then Event.s3Get key :: evs2 else evs2) := by
  cases hA : env.s3Available with
  | false =>
    unfold fetch_file
    rw [hA]
    simp only [Bool.false_eq_true, if_false, hL]
  | true =>
    unfold fetch_file
    rw [hA]
    simp only [if_true]
    rw [fetchFromS3_remote_fail env st key hA h]
    dsimp only
    rw [hL]
    rfl

/-- C2: with no cache entry for the normalized key, any remote-tier
failure from the error taxonomy (object-not-found, bucket-not-found,
access-denied, generic store error, unexpected exception, no credentials,
unparsable body) degrades to the bundled fallback rather than
propagating: when the fallback holds a matching file, resolution succeeds
with that document — copied into the local cache when the copy works
(handle = cache path), or served from the fallback file's own path when
the copy fails — and the fallback tier is consulted. -/
theorem c2_remote_failure_falls_back (env : Env) (st : ServiceState) (name : String)
    (c : Content)
    (hmiss : dirGet st.cacheDir (normalizedName name ++ ".json") = none)
    (hs3 : remoteFails env (normalizedName name) = true)
    (hfb : dirGetOpt st.fallbackDir (normalizedName name ++ ".json") = some c) :
    (env.copyOk = true →
      (get_sentiment_file_path env st name).1 =
        some (Handle.cachePath (normalizedName name)) ∧
      (get_sentiment_file_path env st name).2.1 =
        writeCacheFile st (normalizedName name ++ ".json") c) ∧
    (env.copyOk = false →
      (get_sentiment_file_path env st name).1 =
        some (Handle.fallbackPath (normalizedName name)) ∧
      (get_sentiment_file_path env st name).2.1 = st) ∧
    Event.fallbackCheck (normalizedName name) ∈ (get_sentiment_file_path env st name).2.2 := by
  cases hcopy : env.copyOk with
  | true =>
    have hL : fetchFromLocal env st (normalizedName name) =
        (some (Handle.cachePath (normalizedName name)),
         writeCacheFile st (normalizedName name ++ ".json") c,
         [Event.fallbackCheck (normalizedName name),
          Event.cacheWrite (normalizedName name ++ ".json")]) := by
      unfold fetchFromLocal
      rw [hfb, hcopy]
      rfl
    have hg : get_sentiment_file_path env st name =
        (some (Handle.cachePath (normalizedName name)),
         writeCacheFile st (normalizedName name ++ ".json") c,
         Event.cacheCheck (normalizedName name) ::
           (if env.s3Available = true then
              Event.s3Get (normalizedName name) ::
                [Event.fallbackCheck (normalizedName name),
                 Event.cacheWrite (normalizedName name ++ ".json")]
            else
              [Event.fallbackCheck (normalizedName name),
               Event.cacheWrite (normalizedName name ++ ".json")])) := by
      unfold get_sentiment_file_path
      rw [hmiss, fetch_file_remote_fail env st (normalizedName name) _ _ _ hs3 hL]
    rw [hg]
    refine ⟨fun _ => ⟨rfl, rfl⟩, ?_, ?_⟩
    · intro hcf
      cases hcf
    · cases env.s3Available <;> simp
  | false =>
    have hL : fetchFromLocal env st (normalizedName name) =
        (some (Handle.fallbackPath (normalizedName name)), st,
         [Event.fallbackCheck (normalizedName name)]) := by
      unfold fetchFromLocal
      rw [hfb, hcopy]
      rfl
    have hg : get_sentiment_file_path env st name =
        (some (Handle.fallbackPath (normalizedName name)), st,
         Event.cacheCheck (normalizedName name) ::
           (if env.s3Available = true then
              Event.s3Get (normalizedName name) ::
                [Event.fallbackCheck (normalizedName name)]
            else
              [Event.fallbackCheck (normalizedName name)])) := by
      unfold get_sentiment_file_path
      rw [hmiss, fetch_file_remote_fail env st (normalizedName name) _ _ _ hs3 hL]
    rw [hg]
    refine ⟨?_, fun _ => ⟨rfl, rfl⟩, ?_⟩
    · intro hct
      cases hct
    · cases env.s3Available <;> simp

/-- Witness for C2: remote access denied, fallback holds `docA`. -/
theorem c2_witness :
    (envDenied.copyOk = true →
      (get_sentiment_file_path envDenied stFallbackA "aspirin").1 =
        some (Handle.cachePath (normalizedName "aspirin")) ∧
      (get_sentiment_file_path envDenied stFallbackA "aspirin").2.1 =
        writeCacheFile stFallbackA (normalizedName "aspirin" ++ ".json") (some docA)) ∧
    (envDenied.copyOk = false →
      (get_sentiment_file_path envDenied stFallbackA "aspirin").1 =
        some (Handle.fallbackPath (normalizedName "aspirin")) ∧
      (get_sentiment_file_path envDenied stFallbackA "aspirin").2.1 = stFallbackA) ∧
    Event.fallbackCheck (normalizedName "aspirin") ∈
      (get_sentiment_file_path envDenied stFallbackA "aspirin").2.2 :=
  c2_remote_failure_falls_back envDenied stFallbackA "aspirin" (some docA) rfl rfl rfl

/-- C3: when the remote tier succeeds (bytes retrieved and parsed as
`j`), resolution returns the cache path and the parsed document has been
persisted at the cache path of the normalized key before the handle is
returned, so reading the cache tier afterwards yields the same document
(`Json`-value equality, i.e. byte-for-byte modulo re-serialization
formatting). -/
theorem c3_remote_success_persists_to_cache (env : Env) (st : ServiceState)
    (name : String) (j : Json)
    (hmiss : dirGet st.cacheDir (normalizedName name ++ ".json") = none)
    (hA : env.s3Available = true)
    (hok : env.s3 (normalizedName name) = S3Outcome.ok (some j)) :
    get_sentiment_file_path env st name =
      (some (Handle.cachePath (normalizedName name)),
       writeCacheFile st (normalizedName name ++ ".json") (some j),
       [Event.cacheCheck (normalizedName name), Event.s3Get (normalizedName name),
        Event.cacheWrite (normalizedName name ++ ".json")]) ∧
    dirGet (writeCacheFile st (normalizedName name ++ ".json") (some j)).cacheDir
        (normalizedName name ++ ".json") = some (some j) ∧
    read_sentiment_data (writeCacheFile st (normalizedName name ++ ".json") (some j))
        (Handle.cachePath (normalizedName name)) = some j := by
  have hpersist : dirGet (writeCacheFile st (normalizedName name ++ ".json") (some j)).cacheDir
      (normalizedName name ++ ".json") = some (some j) :=
    dirGet_dirInsert_self st.cacheDir (normalizedName name ++ ".json") (some j)
  have hS : fetchFromS3 env st (normalizedName name) =
      (some (Handle.cachePath (normalizedName name)),
       writeCacheFile st (normalizedName name ++ ".json") (some j),
       [Event.s3Get (normalizedName name),
        Event.cacheWrite (normalizedName name ++ ".json")]) := by
    unfold fetchFromS3
    rw [hok]
  have hg : get_sentiment_file_path env st name =
      (some (Handle.cachePath (normalizedName name)),
       writeCacheFile st (normalizedName name ++ ".json") (some j),
       [Event.cacheCheck (normalizedName name), Event.s3Get (normalizedName name),
        Event.cacheWrite (normalizedName name ++ ".json")]) := by
    unfold get_sentiment_file_path
    rw [hmiss]
    unfold fetch_file
    rw [hA]
    simp only [if_true]
    rw [hS]
  refine ⟨hg, hpersist, ?_⟩
  simp only [read_sentiment_data, hpersist]

/-- Witness for C3 at `aspirin` with remote document `docA`. -/
theorem c3_witness :
    get_sentiment_file_path envS3Doc stEmpty "aspirin" =
      (some (Handle.cachePath (normalizedName "aspirin")),
       writeCacheFile stEmpty (normalizedName "aspirin" ++ ".json") (some docA),
       [Event.cacheCheck (normalizedName "aspirin"), Event.s3Get (normalizedName "aspirin"),
        Event.cacheWrite (normalizedName "aspirin" ++ ".json")]) ∧
    dirGet (writeCacheFile stEmpty (normalizedName "aspirin" ++ ".json") (some docA)).cacheDir
        (normalizedName "aspirin" ++ ".json") = some (some docA) ∧
    read_sentiment_data (writeCacheFile stEmpty (normalizedName "aspirin" ++ ".json") (some docA))
        (Handle.cachePath (normalizedName "aspirin")) = some docA :=
  c3_remote_success_persists_to_cache envS3Doc stEmpty "aspirin" docA rfl rfl rfl

/-- C6: for a non-blank drug name with no document in any tier (cache
miss, remote not-found or unavailable, fallback miss),
`fetch_drug_sentiment` returns EmptyResponse and the state — in
particular the cache directory — is unchanged (no file is created). -/
theorem c6_all_tiers_miss_empty_no_write (env : Env) (st : ServiceState) (name : String)
    (hb : (name == "" || stripStr name == "") = false)
    (hmiss : dirGet st.cacheDir (normalizedName name ++ ".json") = none)
    (hs3 : env.s3Available = false ∨ env.s3 (normalizedName name) = S3Outcome.noSuchKey)
    (hfb : dirGetOpt st.fallbackDir (normalizedName name ++ ".json") = none) :
    (fetch_drug_sentiment env st name).1 = Except.ok (emptyResponse name) ∧
    (fetch_drug_sentiment env st name).2.1 = st := by
  have hrf : remoteFails env (normalizedName name) = true := by
    unfold remoteFails
    rcases hs3 with h | h
    · rw [h]
      rfl
    · rw [h]
      cases env.s3Available <;> rfl
  have hL : fetchFromLocal env st (normalizedName name) =
      (none, st, [Event.fallbackCheck (normalizedName name)]) := by
    unfold fetchFromLocal
    rw [hfb]
  have hg : get_sentiment_file_path env st name =
      (none, st,
       Event.cacheCheck (normalizedName name) ::
         (if env.s3Available = true then
            Event.s3Get (normalizedName name) :: [Event.fallbackCheck (normalizedName name)]
          else [Event.fallbackCheck (normalizedName name)])) := by
    unfold get_sentiment_file_path
    rw [hmiss, fetch_file_remote_fail env st (normalizedName name) _ _ _ hrf hL]
  unfold fetch_drug_sentiment
  rw [if_neg (by simp [hb]), hg]
  exact ⟨rfl, rfl⟩

/-- Witness for C6 at `ibuprofen`: remote configured but empty, no
fallback directory. -/
theorem c6_witness :
    (fetch_drug_sentiment envS3Empty stEmpty "ibuprofen").1 =
      Except.ok (emptyResponse "ibuprofen") ∧
    (fetch_drug_sentiment envS3Empty stEmpty "ibuprofen").2.1 = stEmpty :=
  c6_all_tiers_miss_empty_no_write envS3Empty stEmpty "ibuprofen"
    (by decide) rfl (Or.inr rfl) rfl

/-- C7 counterexample: calling `clear_cache` WITH a given drug name —
the empty string — does not remove only that key's entry: Python's
`if drug_name:` treats `""` as falsy, so the clear-all branch runs and
the entries of other keys (`aspirin.json`, `biotin.json`) are removed,
where the claim requires them left unchanged (the key of `""` has no
entry, so the claimed behaviour is a diagnosed no-op). -/
theorem c7_counterexample_empty_name_clears_all :
    dirGet stTwo.cacheDir (normalizedName "" ++ ".json") = none ∧
    dirGet stTwo.cacheDir "biotin.json" = some (some (Json.num 2)) ∧
    (clear_cache stTwo (some "")).1.cacheDir = [] ∧
    dirGet (clear_cache stTwo (some "")).1.cacheDir "biotin.json" = none :=
  ⟨rfl, rfl, rfl, rfl⟩

/-- C7 (amended): for every given NON-EMPTY drug name, `clear_cache`
removes only that normalized key's cache entry, leaving every other
entry unchanged, and is a no-op with a diagnostic when that entry is
absent; when the argument is omitted — or is the empty string, which
Python truthiness treats like an omitted argument — every `.json` entry
of the local cache tier is removed. -/
theorem c7_clear_cache_single_key_frame (st : ServiceState) (name : String)
    (h : name ≠ "") :
    (∀ c, dirGet st.cacheDir (normalizedName name ++ ".json") = some c →
      clear_cache st (some name) =
        ({ st with cacheDir := dirErase st.cacheDir (normalizedName name ++ ".json") },
         [Event.cacheDelete (normalizedName name ++ ".json")]) ∧
      dirGet (dirErase st.cacheDir (normalizedName name ++ ".json"))
          (normalizedName name ++ ".json") = none ∧
      (∀ f, f ≠ normalizedName name ++ ".json" →
        dirGet (dirErase st.cacheDir (normalizedName name ++ ".json")) f =
          dirGet st.cacheDir f)) ∧
    (dirGet st.cacheDir (normalizedName name ++ ".json") = none →
      clear_cache st (some name) = (st, [Event.noCacheFound name])) ∧
    clear_cache st none =
      ({ st with cacheDir := st.cacheDir.filter (fun p => !(strEndsWith p.1 ".json")) },
       [Event.clearAll]) := by
  have hne : ¬((name == "") = true) := by simp [h]
  refine ⟨?_, ?_, rfl⟩
  · intro c hc
    have hcc : clear_cache st (some name) =
        ({ st with cacheDir := dirErase st.cacheDir (normalizedName name ++ ".json") },
         [Event.cacheDelete (normalizedName name ++ ".json")]) := by
      unfold clear_cache
      dsimp only
      rw [if_neg hne]
      unfold clearSingle
      rw [hc]
    exact ⟨hcc, dirGet_dirErase_self st.cacheDir (normalizedName name ++ ".json"),
      fun f hf => dirGet_dirErase_ne st.cacheDir (normalizedName name ++ ".json") f hf⟩
  · intro hmiss
    unfold clear_cache
    dsimp only
    rw [if_neg hne]
    unfold clearSingle
    rw [hmiss]

/-- Witness for C7 at `aspirin` over a two-entry cache. -/
theorem c7_witness :
    (∀ c, dirGet stTwo.cacheDir (normalizedName "aspirin" ++ ".json") = some c →
      clear_cache stTwo (some "aspirin") =
        ({ stTwo with cacheDir := dirErase stTwo.cacheDir (normalizedName "aspirin" ++ ".json") },
         [Event.cacheDelete (normalizedName "aspirin" ++ ".json")]) ∧
      dirGet (dirErase stTwo.cacheDir (normalizedName "aspirin" ++ ".json"))
          (normalizedName "aspirin" ++ ".json") = none ∧
      (∀ f, f ≠ normalizedName "aspirin" ++ ".json" →
        dirGet (dirErase stTwo.cacheDir (normalizedName "aspirin" ++ ".json")) f =
          dirGet stTwo.cacheDir f)) ∧
    (dirGet stTwo.cacheDir (normalizedName "aspirin" ++ ".json") = none →
      clear_cache stTwo (some "aspirin") = (stTwo, [Event.noCacheFound "aspirin"])) ∧
    clear_cache stTwo none =
      ({ stTwo with cacheDir := stTwo.cacheDir.filter (fun p => !(strEndsWith p.1 ".json")) },
       [Event.clearAll]) :=
  c7_clear_cache_single_key_frame stTwo "aspirin" (by decide)

/-- C8 counterexample: at the empty drug name, `force_fetch_drug_sentiment`
does not "first delete that key's local cache entry": the key of `""` has
no entry, yet the entry of the DIFFERENT key `aspirin` is deleted
(`clear_cache("")` runs the clear-all branch), and no tier is consulted
afterwards (blank input short-circuits), contradicting the claim for
this drug name. -/
theorem c8_counterexample_empty_name_force_fetch :
    dirGet stCachedA.cacheDir (normalizedName "" ++ ".json") = none ∧
    dirGet stCachedA.cacheDir "aspirin.json" = some (some docA) ∧
    (force_fetch_drug_sentiment envS3Empty stCachedA "").2.1.cacheDir = [] ∧
    (force_fetch_drug_sentiment envS3Empty stCachedA "").1 =
      Except.ok (emptyResponse "") ∧
    ((force_fetch_drug_sentiment envS3Empty stCachedA "").2.2.all
      (fun e => !(Event.isS3 e || Event.isFallbackAccess e))) = true :=
  ⟨rfl, rfl, rfl, rfl, rfl⟩

/-- C8 (amended): for every NON-BLANK drug name whose normalized key has
a cache entry, `force_fetch_drug_sentiment` first deletes exactly that
key's cache entry (others unchanged) and then performs an ordinary
fetch, consulting tiers 2 and 3 again; in particular when the remote
tier now reports not-found (or is unavailable) and the fallback has no
matching file, the result is EmptyResponse rather than the previously
cached document.  (For the empty drug name the whole cache is cleared
first and EmptyResponse is returned without consulting any tier, by
Python truthiness.) -/
theorem c8_force_fetch_discards_stale_entry (env : Env) (st : ServiceState) (name : String)
    (c : Content)
    (hb : (name == "" || stripStr name == "") = false)
    (hc : dirGet st.cacheDir (normalizedName name ++ ".json") = some c)
    (hs3 : env.s3Available = false ∨ env.s3 (normalizedName name) = S3Outcome.noSuchKey)
    (hfb : dirGetOpt st.fallbackDir (normalizedName name ++ ".json") = none) :
    (force_fetch_drug_sentiment env st name).1 = Except.ok (emptyResponse name) ∧
    dirGet (force_fetch_drug_sentiment env st name).2.1.cacheDir
        (normalizedName name ++ ".json") = none ∧
    (∀ f, f ≠ normalizedName name ++ ".json" →
      dirGet (force_fetch_drug_sentiment env st name).2.1.cacheDir f =
        dirGet st.cacheDir f) ∧
    Event.fallbackCheck (normalizedName name) ∈
      (force_fetch_drug_sentiment env st name).2.2 ∧
    (env.s3Available = true →
      Event.s3Get (normalizedName name) ∈ (force_fetch_drug_sentiment env st name).2.2) := by
  have hne : ¬((name == "") = true) := by
    intro he
    rw [Bool.or_eq_false_iff] at hb
    rw [he] at hb
    cases hb.1
  have hcl : clear_cache st (some name) =
      ({ st with cacheDir := dirErase st.cacheDir (normalizedName name ++ ".json") },
       [Event.cacheDelete (normalizedName name ++ ".json")]) := by
    unfold clear_cache
    dsimp only
    rw [if_neg hne]
    unfold clearSingle
    rw [hc]
  have hrf : remoteFails env (normalizedName name) = true := by
    unfold remoteFails
    rcases hs3 with h | h
    · rw [h]
      rfl
    · rw [h]
      cases env.s3Available <;> rfl
  have hst1 :
      ({ st with cacheDir := dirErase st.cacheDir (normalizedName name ++ ".json")} :
        ServiceState).fallbackDir = st.fallbackDir := rfl
  have hL : fetchFromLocal env
      { st with cacheDir := dirErase st.cacheDir (normalizedName name ++ ".json") }
      (normalizedName name) =
      (none, { st with cacheDir := dirErase st.cacheDir (normalizedName name ++ ".json") },
       [Event.fallbackCheck (normalizedName name)]) := by
    unfold fetchFromLocal
    rw [hst1, hfb]
  have hg : get_sentiment_file_path env
      { st with cacheDir := dirErase st.cacheDir (normalizedName name ++ ".json") } name =
      (none, { st with cacheDir := dirErase st.cacheDir (normalizedName name ++ ".json") },
       Event.cacheCheck (normalizedName name) ::
         (if env.s3Available = true then
            Event.s3Get (normalizedName name) :: [Event.fallbackCheck (normalizedName name)]
          else [Event.fallbackCheck (normalizedName name)])) := by
    unfold get_sentiment_file_path
    rw [show dirGet (dirErase st.cacheDir (normalizedName name ++ ".json"))
          (normalizedName name ++ ".json") = none from
        dirGet_dirErase_self st.cacheDir (normalizedName name ++ ".json")]
    rw [fetch_file_remote_fail env _ (normalizedName name) _ _ _ hrf hL]
  have hfd : fetch_drug_sentiment env
      { st with cacheDir := dirErase st.cacheDir (normalizedName name ++ ".json") } name =
      (Except.ok (emptyResponse name),
       { st with cacheDir := dirErase st.cacheDir (normalizedName name ++ ".json") },
       Event.cacheCheck (normalizedName name) ::
         (if env.s3Available = true then
            Event.s3Get (normalizedName name) :: [Event.fallbackCheck (normalizedName name)]
          else [Event.fallbackCheck (normalizedName name)])) := by
    unfold fetch_drug_sentiment
    rw [if_neg (by simp [hb]), hg]
  have hforce : force_fetch_drug_sentiment env st name =
      (Except.ok (emptyResponse name),
       { st with cacheDir := dirErase st.cacheDir (normalizedName name ++ ".json") },
       Event.cacheDelete (normalizedName name ++ ".json") ::
         Event.cacheCheck (normalizedName name) ::
           (if env.s3Available = true then
              Event.s3Get (normalizedName name) :: [Event.fallbackCheck (normalizedName name)]
            else [Event.fallbackCheck (normalizedName name)])) := by
    unfold force_fetch_drug_sentiment
    rw [hcl]
    dsimp only
    rw [hfd]
    rfl
  rw [hforce]
  refine ⟨rfl, dirGet_dirErase_self st.cacheDir (normalizedName name ++ ".json"),
    fun f hf => dirGet_dirErase_ne st.cacheDir (normalizedName name ++ ".json") f hf,
    ?_, ?_⟩
  · cases env.s3Available <;> simp
  · intro hA
    rw [hA]
    simp

/-- Witness for C8 at `aspirin`: cached entry, remote now empty, no
fallback — the stale entry is discarded and EmptyResponse returned. -/
theorem c8_witness :
    (force_fetch_drug_sentiment envS3Empty stCachedA "aspirin").1 =
      Except.ok (emptyResponse "aspirin") ∧
    dirGet (force_fetch_drug_sentiment envS3Empty stCachedA "aspirin").2.1.cacheDir
        (normalizedName "aspirin" ++ ".json") = none ∧
    (∀ f, f ≠ normalizedName "aspirin" ++ ".json" →
      dirGet (force_fetch_drug_sentiment envS3Empty stCachedA "aspirin").2.1.cacheDir f =
        dirGet stCachedA.cacheDir f) ∧
    Event.fallbackCheck (normalizedName "aspirin") ∈
      (force_fetch_drug_sentiment envS3Empty stCachedA "aspirin").2.2 ∧
    (envS3Empty.s3Available = true →
      Event.s3Get (normalizedName "aspirin") ∈
        (force_fetch_drug_sentiment envS3Empty stCachedA "aspirin").2.2) :=
  c8_force_fetch_discards_stale_entry envS3Empty stCachedA "aspirin" (some docA)
    (by decide) rfl (Or.inr rfl) rfl

/-- C9: `list_available_drugs` is the deduplicated, lexicographically
sorted union of the keys of the cache tier and of the bundled fallback
tier, each obtained by stripping the `.json` suffix from the directory
listing; a missing fallback directory contributes the empty set rather
than an error; and `get_available_drugs` wraps exactly this list with
its length. -/
theorem c9_list_available_drugs_sorted_union (st : ServiceState) :
    (list_available_drugs st).Sorted strLe ∧
    (list_available_drugs st).Nodup ∧
    (∀ s, s ∈ list_available_drugs st ↔
      (s ∈ dirJsonKeys st.cacheDir ∨ s ∈ fallbackJsonKeys st)) ∧
    (st.fallbackDir = none → fallbackJsonKeys st = []) ∧
    get_available_drugs st =
      { available_drugs := list_available_drugs st,
        total_count := (list_available_drugs st).length } := by
  refine ⟨List.sorted_insertionSort strLe _, ?_, ?_, ?_, rfl⟩
  · exact ((List.perm_insertionSort strLe _).nodup_iff).mpr (List.nodup_dedup _)
  · intro s
    rw [list_available_drugs, List.mem_insertionSort, List.mem_dedup, List.mem_append]
  · intro h
    unfold fallbackJsonKeys
    rw [h]

/-- The list comprehension gate accepts exactly when every required
field passes the Python membership test. -/
theorem missingFieldsAux_ok_nil {j : Json} :
    ∀ {fs : List String}, missingFieldsAux j fs = Except.ok [] →
      fs.all (fun f => (pyContains j f).getD false) = true := by
  intro fs
  induction fs with
  | nil => intro _; rfl
  | cons f rest ih =>
    intro h
    unfold missingFieldsAux at h
    cases hp : pyContains j f with
    | none =>
      rw [hp] at h
      cases h
    | some b =>
      rw [hp] at h
      cases hr : missingFieldsAux j rest with
      | error e =>
        rw [hr] at h
        cases h
      | ok ms =>
        rw [hr] at h
        cases b with
        | false =>
          simp only [if_neg, Bool.false_eq_true, if_false] at h
          cases h
        | true =>
          simp only [if_true] at h
          have hms : ms = [] := by
            cases h
            rfl
          subst hms
          simp only [List.all_cons, hp, Option.getD_some, Bool.true_and]
          exact ih hr

/-- EmptyResponse passes the required-field gate. -/
theorem emptyResponse_hasAllRequired (name : String) :
    jsonHasAllRequired (emptyResponse name) = true := rfl

/-- Every `Except.ok` result of `fetch_drug_sentiment` is either the
EmptyResponse or a document the required-field gate accepted. -/
theorem fetch_ok_cases (env : Env) (st : ServiceState) (name : String) (j : Json)
    (h : (fetch_drug_sentiment env st name).1 = Except.ok j) :
    j = emptyResponse name ∨ missingFields j = Except.ok [] := by
  unfold fetch_drug_sentiment at h
  by_cases hb : (name == "" || stripStr name == "") = true
  · rw [if_pos hb] at h
    cases h
    exact Or.inl rfl
  · rw [if_neg hb] at h
    rcases hg : get_sentiment_file_path env st name with ⟨r, st1, evs⟩
    rw [hg] at h
    cases r with
    | none =>
      cases h
      exact Or.inl rfl
    | some hd =>
      dsimp only at h
      cases hread : read_sentiment_data st1 hd with
      | none =>
        rw [hread] at h
        cases h
        exact Or.inl rfl
      | some data =>
        rw [hread] at h
        dsimp only at h
        cases hm : missingFields data with
        | error e =>
          rw [hm] at h
          cases h
        | ok ms =>
          rw [hm] at h
          cases ms with
          | nil =>
            cases h
            exact Or.inr hm
          | cons m ms2 =>
            cases h
            exact Or.inl rfl

/-- C10: whatever the drug name, environment and tier state, whenever
`fetch_drug_sentiment` (or `force_fetch_drug_sentiment`) returns a value
(rather than raising), that value passes the required-field test for all
six of `drug_name`, `sentiment_data`, `overall_sentiment`,
`sentiment_score`, `total_posts_analyzed`, `analysis_date`: the success
path only returns documents that passed validation, and the
EmptyResponse path constructs all six fields explicitly. -/
theorem c10_results_contain_required_fields (env : Env) (st : ServiceState)
    (name : String) (j : Json) :
    ((fetch_drug_sentiment env st name).1 = Except.ok j →
      jsonHasAllRequired j = true) ∧
    ((force_fetch_drug_sentiment env st name).1 = Except.ok j →
      jsonHasAllRequired j = true) := by
  have hcase : ∀ st0 : ServiceState,
      (fetch_drug_sentiment env st0 name).1 = Except.ok j →
      jsonHasAllRequired j = true := by
    intro st0 h
    rcases fetch_ok_cases env st0 name j h with rfl | hok
    · exact emptyResponse_hasAllRequired name
    · exact missingFieldsAux_ok_nil hok
  refine ⟨hcase st, ?_⟩
  intro h
  unfold force_fetch_drug_sentiment at h
  rcases hcl : clear_cache st (some name) with ⟨st1, evs1⟩
  rw [hcl] at h
  dsimp only at h
  rcases hfd : fetch_drug_sentiment env st1 name with ⟨r, st2, evs2⟩
  rw [hfd] at h
  dsimp only at h
  exact hcase st1 (by rw [hfd]; exact h)
